import Mathlib

/-!
Shallow embedding of the Book CRUD application
(Django REST Framework backend declarations + React frontend)
from the repository sources.

The repository declares, in `myApp/models.py`, a `Book` model with
`title = CharField(max_length=100)`, `author = CharField(max_length=100)`,
`published_date = DateField()`; in `myApp/serializers.py` a
`ModelSerializer` over all fields; in `myApp/views.py` a
`ModelViewSet` over the model; in `myApp/urls.py` a `DefaultRouter`
registration; and in `settings.py` the REST_FRAMEWORK configuration.
The generic CRUD handler itself is framework code not contained in the
repository, so its operations are modelled here from the specification
of the resource endpoint handler contract, with field validation taken
from the model declaration in the source.
-/

namespace BookApi

/-- A calendar date, the value space of the `published_date = models.DateField()`
field of the `Book` model in `models.py`. -/
structure Date where
  year : Int
  month : Nat
  day : Nat
  deriving DecidableEq, Repr

/-- Leap-year rule of the proleptic Gregorian calendar used to decide
whether a `DateField` value is a valid calendar date. -/
def isLeap (y : Int) : Bool :=
  (y % 4 == 0 && y % 100 != 0) || y % 400 == 0

/-- Number of days of month `m` of year `y`. -/
def daysInMonth (y : Int) (m : Nat) : Nat :=
  if m == 2 then (if isLeap y then 29 else 28)
  else if m == 4 || m == 6 || m == 9 || m == 11 then 30
  else 31

/-- A `DateField` accepts exactly the valid calendar dates. -/
def Date.valid (d : Date) : Bool :=
  1 ≤ d.month && d.month ≤ 12 && 1 ≤ d.day && d.day ≤ daysInMonth d.year d.month

/-- The `Book` record of `models.py`: the implicit auto primary key `id`
plus the three declared fields `title`, `author`, `published_date`. -/
structure Book where
  id : Nat
  title : String
  author : String
  published_date : Date
  deriving DecidableEq, Repr

/-- A JSON request body for the Book resource: each of the three writable
fields may be present or absent.  A Create requires all of them; an
Update merges the present ones (`fields = __all__` in `serializers.py`,
with `id` read-only as the auto primary key). -/
structure BookPayload where
  title : Option String
  author : Option String
  published_date : Option Date
  deriving DecidableEq, Repr

/-- One entry of the structured per-field validation error report
returned by the serializer. -/
structure FieldError where
  field : String
  message : String
  deriving DecidableEq, Repr

/-- Validation of one supplied CharField value against the model
declaration `CharField(max_length=100)`: non-blank, at most 100
characters. -/
def charFieldErrors (name : String) (s : String) : List FieldError :=
  (if s.length == 0 then [⟨name, "This field may not be blank."⟩] else []) ++
  (if 100 < s.length then
    [⟨name, "Ensure this field has no more than 100 characters."⟩] else [])

/-- Validation of a possibly absent CharField value on Create:
the field is required. -/
def requiredCharErrors (name : String) : Option String → List FieldError
  | none => [⟨name, "This field is required."⟩]
  | some s => charFieldErrors name s

/-- Validation of one supplied DateField value: must be a valid
calendar date. -/
def dateFieldErrors (name : String) (d : Date) : List FieldError :=
  if d.valid then [] else [⟨name, "Date has wrong format."⟩]

/-- Validation of a possibly absent DateField value on Create:
the field is required. -/
def requiredDateErrors (name : String) : Option Date → List FieldError
  | none => [⟨name, "This field is required."⟩]
  | some d => dateFieldErrors name d

/-- Full-payload validation performed by the serializer on Create:
every field is required and must be well-formed. -/
def validateCreate (p : BookPayload) : List FieldError :=
  requiredCharErrors "title" p.title ++
  requiredCharErrors "author" p.author ++
  requiredDateErrors "published_date" p.published_date

/-- Validation performed on Update: only the supplied fields are
checked. -/
def validateUpdate (p : BookPayload) : List FieldError :=
  (match p.title with
   | none => []
   | some s => charFieldErrors "title" s) ++
  (match p.author with
   | none => []
   | some s => charFieldErrors "author" s) ++
  (match p.published_date with
   | none => []
   | some d => dateFieldErrors "published_date" d)

/-- The persistent store behind `Book.objects`: the stored records in
storage order together with the next auto-increment primary key. -/
structure Store where
  books : List Book
  nextId : Nat
  deriving DecidableEq, Repr

/-- The empty store of a freshly migrated database.  The SQLite
auto-increment primary key starts at 1. -/
def Store.empty : Store := ⟨[], 1⟩

/-- Result of the Create operation. -/
inductive CreateResult where
  | created (b : Book)
  | invalid (errs : List FieldError)
  deriving DecidableEq, Repr

/-- Result of the Update operation. -/
inductive UpdateResult where
  | updated (b : Book)
  | notFound
  | invalid (errs : List FieldError)
  deriving DecidableEq, Repr

/-- Result of the Delete operation. -/
inductive DeleteResult where
  | deleted
  | notFound
  deriving DecidableEq, Repr

/-- Modelled from the spec: the List operation of the resource endpoint
handler (`GET /api/books/`, code of DRF `ModelViewSet`, not in the
repository).  Returns all records in storage-default order;
side-effect-free. -/
def listBooks (s : Store) : List Book := s.books

/-- Modelled from the spec: the Retrieve operation of the resource
endpoint handler (`GET /api/books/{id}/`).  Returns the matching Book
or signals not-found if absent. -/
def retrieveBook (s : Store) (i : Nat) : Option Book :=
  s.books.find? (fun b => b.id == i)

/-- Modelled from the spec: the Create operation of the resource
endpoint handler (`POST /api/books/`).  Validates that the required
fields are present and well-typed; on success persists and returns the
new Book including the assigned id; on validation failure returns a
structured per-field error report and persists nothing. -/
def createBook (s : Store) (p : BookPayload) : Store × CreateResult :=
  match validateCreate p with
  | [] =>
    match p.title, p.author, p.published_date with
    | some t, some a, some d =>
      let b : Book := ⟨s.nextId, t, a, d⟩
      (⟨s.books ++ [b], s.nextId + 1⟩, .created b)
    | _, _, _ => (s, .invalid [⟨"non_field_errors", "Invalid data."⟩])
  | errs => (s, .invalid errs)

/-- Merging a payload into a stored record: each supplied field replaces
the stored value, each absent field is kept, and the id is kept. -/
def mergeBook (b : Book) (p : BookPayload) : Book :=
  ⟨b.id, p.title.getD b.title, p.author.getD b.author,
   p.published_date.getD b.published_date⟩

/-- Modelled from the spec: the Update operation of the resource
endpoint handler (`PUT /api/books/{id}/`).  Takes an id and a full or
(per the spec contract) a payload supplying a subset of the fields;
merges the supplied fields into the stored record, returns the updated
Book, or signals not-found / validation-failed, leaving the store
unchanged in either failure case. -/
def updateBook (s : Store) (i : Nat) (p : BookPayload) : Store × UpdateResult :=
  match retrieveBook s i with
  | none => (s, .notFound)
  | some b =>
    match validateUpdate p with
    | [] =>
      let b2 := mergeBook b p
      (⟨s.books.map (fun x => if x.id == i then b2 else x), s.nextId⟩,
       .updated b2)
    | errs => (s, .invalid errs)

/-- Modelled from the spec: the Delete operation of the resource
endpoint handler (`DELETE /api/books/{id}/`).  Removes the record and
returns no content, or signals not-found. -/
def deleteBook (s : Store) (i : Nat) : Store × DeleteResult :=
  match retrieveBook s i with
  | none => (s, .notFound)
  | some _ => (⟨s.books.filter (fun b => b.id != i), s.nextId⟩, .deleted)

/-- One API request against the Book collection, as dispatched by the
router registration in `urls.py`. -/
inductive Op where
  | list
  | create (p : BookPayload)
  | retrieve (i : Nat)
  | update (i : Nat) (p : BookPayload)
  | delete (i : Nat)
  deriving DecidableEq, Repr

/-- The store after one API request (the read-only operations leave it
unchanged). -/
def applyOp (s : Store) : Op → Store
  | .list => s
  | .create p => (createBook s p).1
  | .retrieve _ => s
  | .update i p => (updateBook s i p).1
  | .delete i => (deleteBook s i).1

/-- The store after a sequence of API requests starting from the empty
store. -/
def runOps (ops : List Op) : Store :=
  ops.foldl applyOp Store.empty

/-- Store well-formedness: every stored id is below the auto-increment
counter, and stored ids are pairwise distinct. -/
def Store.WF (s : Store) : Prop :=
  (∀ b ∈ s.books, b.id < s.nextId) ∧ (s.books.map Book.id).Nodup

/-- Length invariant of the stored records, imposed by the
`max_length=100` bound of the two CharFields of `models.py`. -/
def Store.Bounded (s : Store) : Prop :=
  ∀ b ∈ s.books, b.title.length ≤ 100 ∧ b.author.length ≤ 100

/-- The `DEFAULT_AUTHENTICATION_CLASSES` entry of the `REST_FRAMEWORK`
configuration in `settings.py`. -/
def DEFAULT_AUTHENTICATION_CLASSES : List String :=
  ["rest_framework_simplejwt.authentication.JWTAuthentication"]

/-- The `DEFAULT_PERMISSION_CLASSES` entry of the `REST_FRAMEWORK`
configuration in `settings.py`. -/
def DEFAULT_PERMISSION_CLASSES : List String :=
  ["rest_framework.permissions.AllowAny"]

/-- Modelled from the spec: the behaviour of the configured permission
class (DRF library code, not in the repository).  The `AllowAny` policy
permits every operation whether or not the request carries
credentials; no other permission class is configured in
`settings.py`. -/
def permissionPermits (cls : String) (hasCredentials : Bool) (op : Op) : Bool :=
  if cls == "rest_framework.permissions.AllowAny" then true else false

/-- A request is allowed when every configured permission class
permits it. -/
def requestAllowed (hasCredentials : Bool) (op : Op) : Bool :=
  DEFAULT_PERMISSION_CLASSES.all (fun c => permissionPermits c hasCredentials op)

end BookApi

namespace Frontend

open BookApi

/-- State of the `App` component in `App.js`: the `books` value of
`useState([])`. -/
structure AppState where
  books : List Book
  deriving DecidableEq, Repr

/-- Initial component state: `useState([])` initialises `books` to the
empty array. -/
def appInit : AppState := ⟨[]⟩

/-- An HTTP request issued by the frontend through the Axios instance
of `api.js`. -/
structure Request where
  method : String
  path : String
  deriving DecidableEq, Repr

/-- The requests issued by the mount effect of `App.js`: `useEffect`
with an empty dependency array runs once on mount and performs the
single call `API.get(books/)`. -/
def mountEffectRequests : List Request := [⟨"GET", "books/"⟩]

/-- Outcome of the mount-time fetch: either the promise resolves with
the response data or it rejects with an error. -/
inductive FetchOutcome where
  | success (data : List Book)
  | failure (err : String)
  deriving DecidableEq, Repr

/-- The fetch continuation of `App.js`: on success `setBooks(res.data)`
replaces the state and logs nothing; on failure `console.log(err)`
logs the error and leaves the state untouched.  Returns the new state
and the console log entries produced. -/
def applyOutcome : AppState → FetchOutcome → AppState × List String
  | _, .success data => (⟨data⟩, [])
  | st, .failure err => (st, [err])

/-- The rendered list of `App.js`: one `li` per book, keyed by
`book.id`, with text `book.title` followed by a separator and
`book.author`. -/
def renderApp (st : AppState) : List (Nat × String) :=
  st.books.map (fun b => (b.id, b.title ++ " - " ++ b.author))

end Frontend

namespace BookApi

/-- Searching a list extended with a record whose id matches no existing
record finds the new record. -/
theorem find_append_fresh (l : List Book) (b : Book)
    (h : ∀ x ∈ l, (x.id == b.id) = false) :
    (l ++ [b]).find? (fun x => x.id == b.id) = some b := by
  induction l with
  | nil => simp [List.find?]
  | cons x xs ih =>
    have hx := h x (by simp)
    simp only [List.cons_append, List.find?, hx]
    exact ih (fun y hy => h y (by simp [hy]))

/-- Create on a payload with validation errors rejects the payload and
returns the store unchanged. -/
theorem createBook_of_errors (s : Store) (p : BookPayload)
    (h : validateCreate p ≠ []) :
    createBook s p = (s, .invalid (validateCreate p)) := by
  unfold createBook
  cases hv : validateCreate p with
  | nil => exact absurd hv h
  | cons e es => rfl

/-- Create on a payload that validates persists a new record carrying
the payload fields under the next auto-increment id. -/
theorem createBook_success (s : Store) (p : BookPayload)
    (hv : validateCreate p = []) :
    ∃ t a d, p = ⟨some t, some a, some d⟩ ∧
      createBook s p =
        (⟨s.books ++ [⟨s.nextId, t, a, d⟩], s.nextId + 1⟩,
         .created ⟨s.nextId, t, a, d⟩) := by
  obtain ⟨ot, oa, od⟩ := p
  cases ot with
  | none => simp [validateCreate, requiredCharErrors] at hv
  | some t =>
    cases oa with
    | none => simp [validateCreate, requiredCharErrors] at hv
    | some a =>
      cases od with
      | none => simp [validateCreate, requiredDateErrors] at hv
      | some d =>
        refine ⟨t, a, d, rfl, ?_⟩
        unfold createBook
        rw [hv]

/-- A record found by id carries that id. -/
theorem retrieveBook_id (s : Store) (i : Nat) (b : Book)
    (h : retrieveBook s i = some b) : b.id = i := by
  have := List.find?_some h
  simpa using this

/-- A record found by id is one of the stored records. -/
theorem retrieveBook_mem (s : Store) (i : Nat) (b : Book)
    (h : retrieveBook s i = some b) : b ∈ s.books :=
  List.mem_of_find?_eq_some h

/-- Update of an absent id signals not-found and returns the store
unchanged. -/
theorem updateBook_none (s : Store) (i : Nat) (p : BookPayload)
    (h : retrieveBook s i = none) :
    updateBook s i p = (s, .notFound) := by
  unfold updateBook
  rw [h]

/-- Update of a present id with an invalid payload reports the
validation errors and returns the store unchanged. -/
theorem updateBook_invalid (s : Store) (i : Nat) (p : BookPayload) (b : Book)
    (hb : retrieveBook s i = some b) (hv : validateUpdate p ≠ []) :
    updateBook s i p = (s, .invalid (validateUpdate p)) := by
  unfold updateBook
  rw [hb]
  cases hvp : validateUpdate p with
  | nil => exact absurd hvp hv
  | cons e es => rfl

/-- Update of a present id with a valid payload merges the supplied
fields into the stored record in place. -/
theorem updateBook_ok (s : Store) (i : Nat) (p : BookPayload) (b : Book)
    (hb : retrieveBook s i = some b) (hv : validateUpdate p = []) :
    updateBook s i p =
      (⟨s.books.map (fun x => if x.id == i then mergeBook b p else x), s.nextId⟩,
       .updated (mergeBook b p)) := by
  unfold updateBook
  rw [hb, hv]

/-- Delete of an absent id signals not-found and returns the store
unchanged. -/
theorem deleteBook_none (s : Store) (i : Nat)
    (h : retrieveBook s i = none) :
    deleteBook s i = (s, .notFound) := by
  unfold deleteBook
  rw [h]

/-- Delete of a present id removes exactly the records carrying that
id. -/
theorem deleteBook_some (s : Store) (i : Nat) (b : Book)
    (h : retrieveBook s i = some b) :
    deleteBook s i = (⟨s.books.filter (fun x => x.id != i), s.nextId⟩, .deleted) := by
  unfold deleteBook
  rw [h]

/-- C1: creating a Book from a payload with valid title, author and
published_date and then retrieving the id assigned by Create yields a
record identical to the created one: same id, title, author and
published_date. -/
theorem c1_create_then_retrieve (s : Store) (t a : String) (d : Date)
    (hWF : s.WF)
    (hv : validateCreate ⟨some t, some a, some d⟩ = []) :
    (createBook s ⟨some t, some a, some d⟩).2 = .created ⟨s.nextId, t, a, d⟩ ∧
    retrieveBook (createBook s ⟨some t, some a, some d⟩).1 s.nextId =
      some ⟨s.nextId, t, a, d⟩ := by
  have hc : createBook s ⟨some t, some a, some d⟩ =
      (⟨s.books ++ [⟨s.nextId, t, a, d⟩], s.nextId + 1⟩,
       .created ⟨s.nextId, t, a, d⟩) := by
    unfold createBook
    rw [hv]
  refine ⟨by rw [hc], ?_⟩
  rw [hc]
  unfold retrieveBook
  exact find_append_fresh s.books ⟨s.nextId, t, a, d⟩
    (fun x hx => by
      have := hWF.1 x hx
      simp only [beq_eq_false_iff_ne, ne_eq]
      omega)

/-- Witness for C1 at a concrete store and payload. -/
theorem c1_create_then_retrieve_witness :
    (createBook Store.empty
        ⟨some "Discreet Math", some "Rajesh", some ⟨2023, 12, 1⟩⟩).2 =
      .created ⟨1, "Discreet Math", "Rajesh", ⟨2023, 12, 1⟩⟩ ∧
    retrieveBook (createBook Store.empty
        ⟨some "Discreet Math", some "Rajesh", some ⟨2023, 12, 1⟩⟩).1 1 =
      some ⟨1, "Discreet Math", "Rajesh", ⟨2023, 12, 1⟩⟩ :=
  c1_create_then_retrieve Store.empty "Discreet Math" "Rajesh" ⟨2023, 12, 1⟩
    ⟨by intro b hb; simp [Store.empty] at hb, by simp [Store.empty]⟩
    (by decide)

/-- C2: updating a nonexistent id signals not-found and leaves the
store unchanged; updating an existing id with a valid payload changes
only the supplied fields of that record, keeps every unsupplied field
and every other record, and preserves the id. -/
theorem c2_update_semantics (s : Store) (i : Nat) (p : BookPayload) :
    (retrieveBook s i = none → updateBook s i p = (s, .notFound)) ∧
    (∀ b, retrieveBook s i = some b → validateUpdate p = [] →
      (updateBook s i p).2 = .updated (mergeBook b p) ∧
      (mergeBook b p).id = i ∧
      (p.title = none → (mergeBook b p).title = b.title) ∧
      (p.author = none → (mergeBook b p).author = b.author) ∧
      (p.published_date = none →
        (mergeBook b p).published_date = b.published_date) ∧
      (updateBook s i p).1.books =
        s.books.map (fun x => if x.id == i then mergeBook b p else x) ∧
      ∀ x ∈ s.books, x.id ≠ i → x ∈ (updateBook s i p).1.books) := by
  refine ⟨fun hn => updateBook_none s i p hn, ?_⟩
  intro b hb hv
  have hu := updateBook_ok s i p b hb hv
  have hbid := retrieveBook_id s i b hb
  refine ⟨by rw [hu], by simp [mergeBook, hbid], ?_, ?_, ?_, by rw [hu], ?_⟩
  · intro ht; simp [mergeBook, ht]
  · intro ha; simp [mergeBook, ha]
  · intro hd; simp [mergeBook, hd]
  · intro x hx hxne
    rw [hu]
    refine List.mem_map.mpr ⟨x, hx, ?_⟩
    have hfalse : (x.id == i) = false := by
      simp only [beq_eq_false_iff_ne, ne_eq]
      exact hxne
    simp [hfalse]

/-- Witness for C2 at a concrete one-record store: a present id merges
the supplied title, an absent id is reported not-found. -/
theorem c2_update_semantics_witness :
    (updateBook ⟨[⟨1, "Old", "A", ⟨2020, 1, 1⟩⟩], 2⟩ 1
        ⟨some "New", none, none⟩).2 =
      .updated ⟨1, "New", "A", ⟨2020, 1, 1⟩⟩ ∧
    updateBook ⟨[⟨1, "Old", "A", ⟨2020, 1, 1⟩⟩], 2⟩ 7 ⟨some "New", none, none⟩ =
      (⟨[⟨1, "Old", "A", ⟨2020, 1, 1⟩⟩], 2⟩, .notFound) := by
  constructor
  · have h := (c2_update_semantics ⟨[⟨1, "Old", "A", ⟨2020, 1, 1⟩⟩], 2⟩ 1
        ⟨some "New", none, none⟩).2 ⟨1, "Old", "A", ⟨2020, 1, 1⟩⟩
        (by decide) (by decide)
    exact h.1.trans (by decide)
  · exact (c2_update_semantics ⟨[⟨1, "Old", "A", ⟨2020, 1, 1⟩⟩], 2⟩ 7
      ⟨some "New", none, none⟩).1 (by decide)

/-- Every error reported for a supplied CharField names that field. -/
theorem charFieldErrors_field (n s : String) :
    ∀ e ∈ charFieldErrors n s, e.field = n := by
  intro e he
  unfold charFieldErrors at he
  rw [List.mem_append] at he
  rcases he with he | he <;> split at he <;> simp_all

/-- Every error reported for a required CharField names that field. -/
theorem requiredCharErrors_field (n : String) (o : Option String) :
    ∀ e ∈ requiredCharErrors n o, e.field = n := by
  intro e he
  cases o with
  | none => simp [requiredCharErrors] at he; simp [he]
  | some s => exact charFieldErrors_field n s e he

/-- Every error reported for a required DateField names that field. -/
theorem requiredDateErrors_field (n : String) (o : Option Date) :
    ∀ e ∈ requiredDateErrors n o, e.field = n := by
  intro e he
  cases o with
  | none => simp [requiredDateErrors] at he; simp [he]
  | some d =>
    unfold requiredDateErrors dateFieldErrors at he
    split at he <;> simp_all

/-- C3: a Create input missing a required field (absent or blank title
or author, or absent published_date) is rejected: the store is
returned unchanged with no record persisted, a non-empty validation
error report is produced, and every entry of the report names one of
the serializer fields. -/
theorem c3_create_missing_required (s : Store) (p : BookPayload)
    (h : p.title = none ∨ p.title = some "" ∨ p.author = none ∨
         p.author = some "" ∨ p.published_date = none) :
    createBook s p = (s, .invalid (validateCreate p)) ∧
    validateCreate p ≠ [] ∧
    ∀ e ∈ validateCreate p,
      e.field = "title" ∨ e.field = "author" ∨ e.field = "published_date" := by
  have hne : validateCreate p ≠ [] := by
    unfold validateCreate
    rcases h with h | h | h | h | h <;>
      simp [h, requiredCharErrors, requiredDateErrors, charFieldErrors]
  refine ⟨createBook_of_errors s p hne, hne, ?_⟩
  intro e he
  unfold validateCreate at he
  rw [List.mem_append, List.mem_append] at he
  rcases he with (he | he) | he
  · exact Or.inl (requiredCharErrors_field "title" p.title e he)
  · exact Or.inr (Or.inl (requiredCharErrors_field "author" p.author e he))
  · exact Or.inr (Or.inr (requiredDateErrors_field "published_date"
      p.published_date e he))

/-- Witness for C3: a payload with a blank title is rejected with a
per-field error on title and the store stays empty. -/
theorem c3_create_missing_required_witness :
    createBook Store.empty ⟨some "", some "Rajesh", some ⟨2023, 12, 1⟩⟩ =
      (Store.empty,
       .invalid [⟨"title", "This field may not be blank."⟩]) := by
  have h := c3_create_missing_required Store.empty
    ⟨some "", some "Rajesh", some ⟨2023, 12, 1⟩⟩ (Or.inr (Or.inl rfl))
  exact h.1.trans (by decide)

/-- C4: retrieving an id carried by no stored record signals
not-found; deleting an existing id succeeds, after which retrieving
that id signals not-found and the listing contains no record with that
id. -/
theorem c4_retrieve_delete_notfound (s : Store) (i : Nat) :
    ((∀ b ∈ s.books, b.id ≠ i) → retrieveBook s i = none) ∧
    (∀ b, retrieveBook s i = some b →
      (deleteBook s i).2 = .deleted ∧
      retrieveBook (deleteBook s i).1 i = none ∧
      ∀ x ∈ listBooks (deleteBook s i).1, x.id ≠ i) := by
  constructor
  · intro h
    unfold retrieveBook
    rw [List.find?_eq_none]
    intro x hx
    simp [h x hx]
  · intro b hb
    have hd := deleteBook_some s i b hb
    refine ⟨by rw [hd], ?_, ?_⟩
    · rw [hd]
      unfold retrieveBook
      rw [List.find?_eq_none]
      intro x hx
      have hxf := (List.mem_filter.mp hx).2
      simpa using hxf
    · intro x hx
      rw [hd] at hx
      have hxf := (List.mem_filter.mp hx).2
      simpa using hxf

/-- Witness for C4: in a one-record store, id 5 is not retrievable,
and deleting id 1 makes it unretrievable and absent from the
listing. -/
theorem c4_retrieve_delete_notfound_witness :
    retrieveBook ⟨[⟨1, "T", "A", ⟨2021, 6, 5⟩⟩], 2⟩ 5 = none ∧
    (deleteBook ⟨[⟨1, "T", "A", ⟨2021, 6, 5⟩⟩], 2⟩ 1).2 = .deleted ∧
    retrieveBook (deleteBook ⟨[⟨1, "T", "A", ⟨2021, 6, 5⟩⟩], 2⟩ 1).1 1 = none ∧
    ∀ x ∈ listBooks (deleteBook ⟨[⟨1, "T", "A", ⟨2021, 6, 5⟩⟩], 2⟩ 1).1,
      x.id ≠ 1 := by
  refine ⟨(c4_retrieve_delete_notfound ⟨[⟨1, "T", "A", ⟨2021, 6, 5⟩⟩], 2⟩ 5).1
    (by decide), ?_⟩
  exact (c4_retrieve_delete_notfound ⟨[⟨1, "T", "A", ⟨2021, 6, 5⟩⟩], 2⟩ 1).2
    ⟨1, "T", "A", ⟨2021, 6, 5⟩⟩ (by decide)

/-- The empty store is well-formed. -/
theorem WF_empty : Store.WF Store.empty :=
  ⟨by intro b hb; simp [Store.empty] at hb, by simp [Store.empty]⟩

/-- Create preserves store well-formedness: the assigned id is fresh
and the auto-increment counter moves past it. -/
theorem WF_create (s : Store) (p : BookPayload) (h : s.WF) :
    ((createBook s p).1).WF := by
  cases hv : validateCreate p with
  | cons e es =>
    have hc := createBook_of_errors s p (by rw [hv]; simp)
    rw [hc]
    exact h
  | nil =>
    obtain ⟨t, a, d, hp, hc⟩ := createBook_success s p hv
    rw [hc]
    constructor
    · intro b hb
      simp only [List.mem_append, List.mem_singleton] at hb
      rcases hb with hb | hb
      · exact Nat.lt_succ_of_lt (h.1 b hb)
      · rw [hb]
        exact Nat.lt_succ_self _
    · simp only [List.map_append, List.map_cons, List.map_nil]
      rw [List.nodup_append]
      refine ⟨h.2, List.nodup_singleton _, ?_⟩
      intro x hx hxs
      simp only [List.mem_singleton] at hxs
      subst hxs
      obtain ⟨b, hb, hbid⟩ := List.mem_map.mp hx
      have := h.1 b hb
      omega

/-- Folding valid Creates over a well-formed store keeps it
well-formed and adds one record per payload. -/
theorem creates_foldl (ps : List BookPayload) :
    ∀ s : Store, s.WF → (∀ p ∈ ps, validateCreate p = []) →
      (ps.foldl (fun s p => (createBook s p).1) s).WF ∧
      (ps.foldl (fun s p => (createBook s p).1) s).books.length =
        s.books.length + ps.length := by
  induction ps with
  | nil =>
    intro s hWF _
    exact ⟨hWF, by simp⟩
  | cons p ps ih =>
    intro s hWF hv
    obtain ⟨t, a, d, hp, hc⟩ := createBook_success s p (hv p (by simp))
    have h2 := ih (createBook s p).1 (WF_create s p hWF)
      (fun q hq => hv q (by simp [hq]))
    refine ⟨h2.1, ?_⟩
    rw [List.foldl_cons, h2.2, hc]
    simp only [List.length_append, List.length_cons, List.length_nil]
    omega

/-- Applying one operation never rewrites a surviving record's id: the
resulting id sequence is a subsequence of the old ids followed by the
fresh auto-increment id. -/
theorem applyOp_ids_sublist (s : Store) (op : Op) :
    ((applyOp s op).books.map Book.id).Sublist
      (s.books.map Book.id ++ [s.nextId]) := by
  cases op with
  | list => exact List.sublist_append_left _ _
  | retrieve i => exact List.sublist_append_left _ _
  | create p =>
    show (((createBook s p).1).books.map Book.id).Sublist _
    cases hv : validateCreate p with
    | cons e es =>
      rw [createBook_of_errors s p (by rw [hv]; simp)]
      exact List.sublist_append_left _ _
    | nil =>
      obtain ⟨t, a, d, hp, hc⟩ := createBook_success s p hv
      rw [hc]
      simp only [List.map_append, List.map_cons, List.map_nil]
      exact List.Sublist.refl _
  | update i p =>
    show (((updateBook s i p).1).books.map Book.id).Sublist _
    cases hb : retrieveBook s i with
    | none =>
      rw [updateBook_none s i p hb]
      exact List.sublist_append_left _ _
    | some b =>
      cases hvp : validateUpdate p with
      | cons e es =>
        rw [updateBook_invalid s i p b hb (by rw [hvp]; simp)]
        exact List.sublist_append_left _ _
      | nil =>
        rw [updateBook_ok s i p b hb hvp]
        have hbid := retrieveBook_id s i b hb
        have hmap : (s.books.map
            (fun x => if x.id == i then mergeBook b p else x)).map Book.id =
            s.books.map Book.id := by
          rw [List.map_map]
          apply List.map_congr_left
          intro x hx
          by_cases hxi : (x.id == i) = true
          · have hxid : x.id = i := by simpa using hxi
            simp [Function.comp, hxi, mergeBook, hbid, hxid]
          · have hxf : (x.id == i) = false := by
              simpa using hxi
            simp [Function.comp, hxf]
        show ((s.books.map
            (fun x => if x.id == i then mergeBook b p else x)).map Book.id).Sublist _
        rw [hmap]
        exact List.sublist_append_left _ _
  | delete i =>
    show (((deleteBook s i).1).books.map Book.id).Sublist _
    cases hb : retrieveBook s i with
    | none =>
      rw [deleteBook_none s i hb]
      exact List.sublist_append_left _ _
    | some b =>
      rw [deleteBook_some s i b hb]
      exact ((List.filter_sublist _).map Book.id).trans
        (List.sublist_append_left _ _)

/-- C5: after N successful Creates from the empty store the listing
has exactly N records with pairwise distinct ids, and no operation
ever changes the id of a surviving record. -/
theorem c5_list_after_creates (ps : List BookPayload)
    (hv : ∀ p ∈ ps, validateCreate p = []) :
    (listBooks (runOps (ps.map Op.create))).length = ps.length ∧
    ((listBooks (runOps (ps.map Op.create))).map Book.id).Nodup ∧
    ∀ (s : Store) (op : Op),
      ((applyOp s op).books.map Book.id).Sublist
        (s.books.map Book.id ++ [s.nextId]) := by
  have hrun : runOps (ps.map Op.create) =
      ps.foldl (fun s p => (createBook s p).1) Store.empty := by
    unfold runOps
    rw [List.foldl_map]
    rfl
  have h := creates_foldl ps Store.empty WF_empty hv
  refine ⟨?_, ?_, fun s op => applyOp_ids_sublist s op⟩
  · show (runOps (ps.map Op.create)).books.length = ps.length
    rw [hrun, h.2]
    simp [Store.empty]
  · show ((runOps (ps.map Op.create)).books.map Book.id).Nodup
    rw [hrun]
    exact h.1.2

/-- Witness for C5: two valid payloads yield a two-record listing with
distinct ids. -/
theorem c5_list_after_creates_witness :
    (listBooks (runOps ([(⟨some "T1", some "A1", some ⟨2020, 1, 1⟩⟩ : BookPayload),
        ⟨some "T2", some "A2", some ⟨2021, 2, 2⟩⟩].map Op.create))).length = 2 ∧
    ((listBooks (runOps ([(⟨some "T1", some "A1", some ⟨2020, 1, 1⟩⟩ : BookPayload),
        ⟨some "T2", some "A2", some ⟨2021, 2, 2⟩⟩].map Op.create))).map
      Book.id).Nodup := by
  have h := c5_list_after_creates
    [⟨some "T1", some "A1", some ⟨2020, 1, 1⟩⟩,
     ⟨some "T2", some "A2", some ⟨2021, 2, 2⟩⟩]
    (by intro p hp; simp at hp; rcases hp with hp | hp <;> subst hp <;> decide)
  exact ⟨h.1, h.2.1⟩

/-- C6: the Update operation behind PUT accepts a payload supplying
any subset of the fields: when the supplied fields validate, the
update succeeds and returns a record merging the supplied fields over
the stored ones, which is persisted in the store. -/
theorem c6_update_accepts_subset (s : Store) (i : Nat) (p : BookPayload)
    (b : Book) (hb : retrieveBook s i = some b)
    (hv : validateUpdate p = []) :
    ∃ b2, (updateBook s i p).2 = .updated b2 ∧
      b2.id = b.id ∧
      b2.title = p.title.getD b.title ∧
      b2.author = p.author.getD b.author ∧
      b2.published_date = p.published_date.getD b.published_date ∧
      b2 ∈ (updateBook s i p).1.books := by
  have hu := updateBook_ok s i p b hb hv
  have hbid := retrieveBook_id s i b hb
  refine ⟨mergeBook b p, by rw [hu], rfl, rfl, rfl, rfl, ?_⟩
  rw [hu]
  refine List.mem_map.mpr ⟨b, retrieveBook_mem s i b hb, ?_⟩
  have : (b.id == i) = true := by simpa using hbid
  simp [this]

/-- Witness for C6: a payload supplying only the author field updates
a stored record, keeping its title and date. -/
theorem c6_update_accepts_subset_witness :
    ∃ b2, (updateBook ⟨[⟨1, "T", "A", ⟨2022, 3, 4⟩⟩], 2⟩ 1
        ⟨none, some "B", none⟩).2 = .updated b2 ∧
      b2.id = 1 ∧
      b2.title = "T" ∧
      b2.author = "B" ∧
      b2.published_date = ⟨2022, 3, 4⟩ ∧
      b2 ∈ (updateBook ⟨[⟨1, "T", "A", ⟨2022, 3, 4⟩⟩], 2⟩ 1
        ⟨none, some "B", none⟩).1.books := by
  obtain ⟨b2, h1, h2, h3, h4, h5, h6⟩ :=
    c6_update_accepts_subset ⟨[⟨1, "T", "A", ⟨2022, 3, 4⟩⟩], 2⟩ 1
      ⟨none, some "B", none⟩ ⟨1, "T", "A", ⟨2022, 3, 4⟩⟩ (by decide) (by decide)
  exact ⟨b2, h1, h2, h3, h4, h5, h6⟩

/-- C8: JWT authentication is configured, yet the configured
permission policy AllowAny admits every one of the five CRUD
operations for a request carrying no credentials. -/
theorem c8_all_operations_allowed_unauthenticated :
    DEFAULT_AUTHENTICATION_CLASSES =
      ["rest_framework_simplejwt.authentication.JWTAuthentication"] ∧
    ∀ op : Op, requestAllowed false op = true :=
  ⟨rfl, fun _ => rfl⟩

end BookApi

namespace Frontend

/-- C7: the mount effect issues exactly one GET of the Book
collection; a successful fetch stores the response data and renders
each record as its title and author joined by a dash, keyed by id; a
failed fetch logs exactly the error and leaves nothing rendered. -/
theorem c7_frontend_mount :
    mountEffectRequests.length = 1 ∧
    mountEffectRequests = [⟨"GET", "books/"⟩] ∧
    (∀ bs : List BookApi.Book,
      (applyOutcome appInit (.success bs)).1.books = bs ∧
      (applyOutcome appInit (.success bs)).2 = [] ∧
      renderApp (applyOutcome appInit (.success bs)).1 =
        bs.map (fun b => (b.id, b.title ++ " - " ++ b.author))) ∧
    (∀ e : String,
      (applyOutcome appInit (.failure e)).2 = [e] ∧
      renderApp (applyOutcome appInit (.failure e)).1 = []) :=
  ⟨rfl, rfl, fun _ => ⟨rfl, rfl, rfl⟩, fun _ => ⟨rfl, rfl⟩⟩

/-- C9: the book state starts as the empty array and is untouched by
the error path, so the component renders an empty list before the
fetch resolves and permanently after a failure. -/
theorem c9_initial_and_failure_render_empty :
    appInit.books = [] ∧
    renderApp appInit = [] ∧
    (∀ (st : AppState) (e : String), (applyOutcome st (.failure e)).1 = st) ∧
    (∀ e : String, renderApp (applyOutcome appInit (.failure e)).1 = []) :=
  ⟨rfl, rfl, fun _ _ => rfl, fun _ => rfl⟩

end Frontend

namespace BookApi

/-- A CharField value beyond 100 characters produces the max-length
error for its field. -/
theorem maxlen_mem_charFieldErrors (n s : String) (h : 100 < s.length) :
    (⟨n, "Ensure this field has no more than 100 characters."⟩ : FieldError) ∈
      charFieldErrors n s := by
  unfold charFieldErrors
  refine List.mem_append_right _ ?_
  rw [if_pos h]
  simp

/-- A CharField value passing validation has at most 100 characters. -/
theorem charFieldErrors_eq_nil (n s : String)
    (h : charFieldErrors n s = []) : s.length ≤ 100 := by
  by_contra hc
  push_neg at hc
  unfold charFieldErrors at h
  obtain ⟨h1, h2⟩ := List.append_eq_nil.mp h
  rw [if_pos hc] at h2
  exact absurd h2 (by simp)

/-- Every operation preserves the 100-character bound on the stored
title and author fields. -/
theorem Bounded_applyOp (s : Store) (op : Op) (h : s.Bounded) :
    (applyOp s op).Bounded := by
  cases op with
  | list => exact h
  | retrieve i => exact h
  | create p =>
    show ((createBook s p).1).Bounded
    cases hv : validateCreate p with
    | cons e es =>
      rw [createBook_of_errors s p (by rw [hv]; simp)]
      exact h
    | nil =>
      obtain ⟨t, a, d, hp, hc⟩ := createBook_success s p hv
      subst hp
      unfold validateCreate at hv
      obtain ⟨h12, h3⟩ := List.append_eq_nil.mp hv
      obtain ⟨h1, h2⟩ := List.append_eq_nil.mp h12
      rw [hc]
      intro b hb
      simp only [List.mem_append, List.mem_singleton] at hb
      rcases hb with hb | hb
      · exact h b hb
      · subst hb
        refine ⟨charFieldErrors_eq_nil "title" t ?_,
          charFieldErrors_eq_nil "author" a ?_⟩
        · simpa [requiredCharErrors] using h1
        · simpa [requiredCharErrors] using h2
  | update i p =>
    show ((updateBook s i p).1).Bounded
    cases hb : retrieveBook s i with
    | none =>
      rw [updateBook_none s i p hb]
      exact h
    | some b =>
      cases hvp : validateUpdate p with
      | cons e es =>
        rw [updateBook_invalid s i p b hb (by rw [hvp]; simp)]
        exact h
      | nil =>
        rw [updateBook_ok s i p b hb hvp]
        unfold validateUpdate at hvp
        obtain ⟨hv12, hv3⟩ := List.append_eq_nil.mp hvp
        obtain ⟨hv1, hv2⟩ := List.append_eq_nil.mp hv12
        have hbb := h b (retrieveBook_mem s i b hb)
        intro x hx
        simp only [List.mem_map] at hx
        obtain ⟨y, hy, hxy⟩ := hx
        subst hxy
        by_cases hyi : (y.id == i) = true
        · simp only [hyi, if_true]
          constructor
          · show (mergeBook b p).title.length ≤ 100
            cases ht : p.title with
            | none => simpa [mergeBook, ht] using hbb.1
            | some t =>
              rw [ht] at hv1
              simp only [mergeBook, ht, Option.getD_some]
              exact charFieldErrors_eq_nil "title" t hv1
          · show (mergeBook b p).author.length ≤ 100
            cases ha : p.author with
            | none => simpa [mergeBook, ha] using hbb.2
            | some a =>
              rw [ha] at hv2
              simp only [mergeBook, ha, Option.getD_some]
              exact charFieldErrors_eq_nil "author" a hv2
        · have hyf : (y.id == i) = false := by simpa using hyi
          simp only [hyf, Bool.false_eq_true, if_false]
          exact h y hy
  | delete i =>
    show ((deleteBook s i).1).Bounded
    cases hb : retrieveBook s i with
    | none =>
      rw [deleteBook_none s i hb]
      exact h
    | some b =>
      rw [deleteBook_some s i b hb]
      intro x hx
      exact h x (List.mem_filter.mp hx).1

/-- Every store reachable from the empty store satisfies the
100-character bound. -/
theorem Bounded_runOps (ops : List Op) : (runOps ops).Bounded := by
  unfold runOps
  have haux : ∀ (l : List Op) (s : Store), s.Bounded →
      (l.foldl applyOp s).Bounded := by
    intro l
    induction l with
    | nil => intro s hs; exact hs
    | cons op l ih =>
      intro s hs
      exact ih _ (Bounded_applyOp s op hs)
  exact haux ops Store.empty (by intro b hb; simp [Store.empty] at hb)

/-- C10: the CharField bound is exactly 100 characters: a Create or an
Update supplying a title or author beyond 100 characters is rejected
with a max-length validation error on that field and leaves the store
unchanged, and every record of every reachable store keeps title and
author within 100 characters. -/
theorem c10_max_length_100 :
    (∀ (s : Store) (p : BookPayload) (t : String),
      p.title = some t → 100 < t.length →
      createBook s p = (s, .invalid (validateCreate p)) ∧
      (⟨"title", "Ensure this field has no more than 100 characters."⟩ :
        FieldError) ∈ validateCreate p) ∧
    (∀ (s : Store) (p : BookPayload) (a : String),
      p.author = some a → 100 < a.length →
      createBook s p = (s, .invalid (validateCreate p)) ∧
      (⟨"author", "Ensure this field has no more than 100 characters."⟩ :
        FieldError) ∈ validateCreate p) ∧
    (∀ (s : Store) (i : Nat) (p : BookPayload) (b : Book) (t : String),
      retrieveBook s i = some b → p.title = some t → 100 < t.length →
      updateBook s i p = (s, .invalid (validateUpdate p)) ∧
      (⟨"title", "Ensure this field has no more than 100 characters."⟩ :
        FieldError) ∈ validateUpdate p) ∧
    (∀ (s : Store) (i : Nat) (p : BookPayload) (b : Book) (a : String),
      retrieveBook s i = some b → p.author = some a → 100 < a.length →
      updateBook s i p = (s, .invalid (validateUpdate p)) ∧
      (⟨"author", "Ensure this field has no more than 100 characters."⟩ :
        FieldError) ∈ validateUpdate p) ∧
    (∀ ops : List Op, Store.Bounded (runOps ops)) := by
  refine ⟨?_, ?_, ?_, ?_, Bounded_runOps⟩
  · intro s p t hpt hlen
    have hmem : (⟨"title", "Ensure this field has no more than 100 characters."⟩ :
        FieldError) ∈ validateCreate p := by
      unfold validateCreate
      refine List.mem_append_left _ (List.mem_append_left _ ?_)
      rw [hpt]
      exact maxlen_mem_charFieldErrors "title" t hlen
    exact ⟨createBook_of_errors s p (List.ne_nil_of_mem hmem), hmem⟩
  · intro s p a hpa hlen
    have hmem : (⟨"author", "Ensure this field has no more than 100 characters."⟩ :
        FieldError) ∈ validateCreate p := by
      unfold validateCreate
      refine List.mem_append_left _ (List.mem_append_right _ ?_)
      rw [hpa]
      exact maxlen_mem_charFieldErrors "author" a hlen
    exact ⟨createBook_of_errors s p (List.ne_nil_of_mem hmem), hmem⟩
  · intro s i p b t hb hpt hlen
    have hmem : (⟨"title", "Ensure this field has no more than 100 characters."⟩ :
        FieldError) ∈ validateUpdate p := by
      unfold validateUpdate
      refine List.mem_append_left _ (List.mem_append_left _ ?_)
      rw [hpt]
      exact maxlen_mem_charFieldErrors "title" t hlen
    exact ⟨updateBook_invalid s i p b hb (List.ne_nil_of_mem hmem), hmem⟩
  · intro s i p b a hb hpa hlen
    have hmem : (⟨"author", "Ensure this field has no more than 100 characters."⟩ :
        FieldError) ∈ validateUpdate p := by
      unfold validateUpdate
      refine List.mem_append_left _ (List.mem_append_right _ ?_)
      rw [hpa]
      exact maxlen_mem_charFieldErrors "author" a hlen
    exact ⟨updateBook_invalid s i p b hb (List.ne_nil_of_mem hmem), hmem⟩

/-- Witness for C10: a 101-character title is rejected on Create with
the max-length error and the empty store is unchanged. -/
theorem c10_max_length_100_witness :
    createBook Store.empty
        ⟨some (String.mk (List.replicate 101 'a')), some "A", some ⟨2020, 1, 1⟩⟩ =
      (Store.empty, .invalid (validateCreate
        ⟨some (String.mk (List.replicate 101 'a')), some "A", some ⟨2020, 1, 1⟩⟩)) ∧
    (⟨"title", "Ensure this field has no more than 100 characters."⟩ :
      FieldError) ∈ validateCreate
        ⟨some (String.mk (List.replicate 101 'a')), some "A", some ⟨2020, 1, 1⟩⟩ :=
  c10_max_length_100.1 Store.empty
    ⟨some (String.mk (List.replicate 101 'a')), some "A", some ⟨2020, 1, 1⟩⟩
    (String.mk (List.replicate 101 'a')) rfl (by decide)

end BookApi
